import Mathlib

/-! Verification of the nfc Go binding shim (dev/nfc/nfc.go): the error-code
table, the description method on the Error type, the declared constant
groups, and the package-level library context. -/

set_option maxRecDepth 8000

set_option linter.dupNamespace false

namespace nfc

/-- Go: `type Error int` (nfc.go:135). -/
abbrev Error := Int

/-- Go: `const BUFSIZE_CONNSTRING = 1024` (nfc.go:9). -/
def BUFSIZE_CONNSTRING : Int := 1024

/-- Property identifiers (nfc.go:12-98), values produced by Go iota. -/
def TIMEOUT_COMMAND : Int := 0

def TIMEOUT_ATR : Int := 1

def TIMEOUT_COM : Int := 2

def HANDLE_CRC : Int := 3

def HANDLE_PARITY : Int := 4

def ACTIVATE_FIELD : Int := 5

def ACTIVATE_CRYPTO1 : Int := 6

def INFINITE_SELECT : Int := 7

def ACCEPT_INVALID_FRAMES : Int := 8

def ACCEPT_MULTIPLE_FRAMES : Int := 9

def AUTO_ISO14443_4 : Int := 10

def EASY_FRAMING : Int := 11

def FORCE_ISO14443_A : Int := 12

def FORCE_ISO14443_B : Int := 13

def FORCE_SPEED_106 : Int := 14

/-- Modulation types (nfc.go:101-110), values produced by Go iota + 1. -/
def ISO14443A : Int := 1

def JEWEL : Int := 2

def ISO14443B : Int := 3

def ISO14443BI : Int := 4

def ISO14443B2SR : Int := 5

def ISO14443B2CT : Int := 6

def FELICA : Int := 7

def DEP : Int := 8

/-- Baud rates (nfc.go:114-119), values produced by Go iota + 1. -/
def NBR_106 : Int := 1

def NBR_212 : Int := 2

def NBR_424 : Int := 3

def NBR_847 : Int := 4

/-- Modes (nfc.go:122-125). -/
def TARGET : Int := 0

def INITIATOR : Int := 1

/-- Error codes (nfc.go:151-166). -/
def SUCCESS : Int := 0

def EIO : Int := -1

def EINVARG : Int := -2

def EDEVNOTSUPP : Int := -3

def ENOTSUCHDEV : Int := -4

def EOVFLOW : Int := -5

def ETIMEOUT : Int := -6

def EOPABORTED : Int := -7

def ENOTIMPL : Int := -8

def ETGRELEASED : Int := -10

def ERFTRANS : Int := -20

def EMFCAUTHFAIL : Int := -30

def ESOFT : Int := -80

def ECHIP : Int := -90

/-- The groups in declaration order, for the ordering and distinctness claims. -/
def propertyConstants : List Int :=
  [TIMEOUT_COMMAND, TIMEOUT_ATR, TIMEOUT_COM, HANDLE_CRC, HANDLE_PARITY,
   ACTIVATE_FIELD, ACTIVATE_CRYPTO1, INFINITE_SELECT, ACCEPT_INVALID_FRAMES,
   ACCEPT_MULTIPLE_FRAMES, AUTO_ISO14443_4, EASY_FRAMING, FORCE_ISO14443_A,
   FORCE_ISO14443_B, FORCE_SPEED_106]

def modulationTypes : List Int :=
  [ISO14443A, JEWEL, ISO14443B, ISO14443BI, ISO14443B2SR, ISO14443B2CT,
   FELICA, DEP]

def baudRates : List Int :=
  [NBR_106, NBR_212, NBR_424, NBR_847]

def errorCodes : List Int :=
  [SUCCESS, EIO, EINVARG, EDEVNOTSUPP, ENOTSUCHDEV, EOVFLOW, ETIMEOUT,
   EOPABORTED, ENOTIMPL, ETGRELEASED, ERFTRANS, EMFCAUTHFAIL, ESOFT, ECHIP]

/-- Decimal digits of a natural number, most significant first; the fuel
argument makes the recursion structural, `natDigits` supplies enough fuel. -/
def natDigitsAux : Nat → Nat → List Nat
  | 0, _ => []
  | fuel + 1, n => if n < 10 then [n] else natDigitsAux fuel (n / 10) ++ [n % 10]

def natDigits (n : Nat) : List Nat := natDigitsAux (n + 1) n

def digitChar (d : Nat) : Char := Char.ofNat (48 + d)

def natDecString (n : Nat) : String := String.mk ((natDigits n).map digitChar)

/-- Decimal rendering of an integer as produced by Go fmt with the d verb. -/
def goIntString (n : Int) : String :=
  if n < 0 then "-" ++ natDecString n.natAbs else natDecString n.toNat

/-- Go: `var errorMessages = map[int]string{...}` (nfc.go:171-185), in the
literal order of the source.  Note the table has no entry for ESOFT. -/
def errorMessages : List (Int × String) :=
  [(SUCCESS, "Success"),
   ( EIO, "Input / Output Error"),
   (EINVARG, "Invalid argument(s)"),
   (EDEVNOTSUPP, "Not Supported by Device"),
   (ENOTSUCHDEV, "No Such Device"),
   (EOVFLOW, "Buffer Overflow"),
   (ETIMEOUT, "Timeout"),
   (EOPABORTED, "Operation Aborted"),
   (ENOTIMPL, "Not (yet) Implemented"),
   (ETGRELEASED, "Target Released"),
   (EMFCAUTHFAIL, "Mifare Authentication Failed"),
   (ERFTRANS, "RF Transmission Error"),
   (ECHIP, "Device\x27s Internal Chip Error")]

/-- Go map indexing `m[k]` for a map of strings: the entry when the key is
present, and the zero value (the empty string) when it is absent. -/
def mapLookup (m : List (Int × String)) (k : Int) : String :=
  match m.find? (fun p => p.1 == k) with
  | some p => p.2
  | none => ""

/-- Go: `func (e Error) Error() string` (nfc.go:140-146). -/
def Error.Error (e : Error) : String :=
  if mapLookup errorMessages e = "" then "Error " ++ goIntString e
  else mapLookup errorMessages e

/-- State-passing rendering of the same method: the Go map is threaded
through explicitly so that the absence of side effects on the table is a
statement, not a convention of the embedding. -/
def errorStringSt (tbl : List (Int × String)) (e : Int) :
    String × List (Int × String) :=
  if mapLookup tbl e = "" then ("Error " ++ goIntString e, tbl)
  else (mapLookup tbl e, tbl)

/-- Modelled from the spec: the `context` struct type behind
`var theContext *context = &context{}` (nfc.go:188) is not defined under
src/, so the package state is modelled for the spec singleton contract as
a count of context allocations plus the address held by the global.
Package initialization performs the single allocation. -/
structure PackageState where
  contextAllocs : Nat
  theContext : Nat
deriving DecidableEq

/-- Modelled from the spec: package initialization allocates the one
global context exactly once. -/
def initPackage : PackageState := { contextAllocs := 1, theContext := 0 }

/-- Modelled from the spec: acquiring the context reads the global and
leaves the package state untouched. -/
def acquireContext (s : PackageState) : Nat × PackageState := (s.theContext, s)

/-! Helper lemmas about decimal rendering. -/

def digitsToNat (l : List Nat) : Nat := l.foldl (fun acc d => acc * 10 + d) 0

theorem digitsToNat_append_single (l : List Nat) (d : Nat) :
    digitsToNat (l ++ [d]) = digitsToNat l * 10 + d := by
  unfold digitsToNat
  rw [List.foldl_append]
  rfl

theorem digitsToNat_natDigitsAux (fuel : Nat) :
    ∀ n : Nat, n < fuel → digitsToNat (natDigitsAux fuel n) = n := by
  induction fuel with
  | zero => intro n h; omega
  | succ fuel ih =>
    intro n h
    unfold natDigitsAux
    by_cases h10 : n < 10
    · simp only [if_pos h10]
      unfold digitsToNat
      simp
    · simp only [if_neg h10]
      rw [digitsToNat_append_single, ih (n / 10) (by omega)]
      omega

theorem digitsToNat_natDigits (n : Nat) : digitsToNat (natDigits n) = n :=
  digitsToNat_natDigitsAux (n + 1) n (by omega)

theorem natDigits_inj {m n : Nat} (h : natDigits m = natDigits n) : m = n := by
  have := digitsToNat_natDigits m
  rw [h, digitsToNat_natDigits] at this
  omega

theorem natDigitsAux_lt_ten (fuel : Nat) :
    ∀ n : Nat, ∀ d ∈ natDigitsAux fuel n, d < 10 := by
  induction fuel with
  | zero => intro n d hd; simp [natDigitsAux] at hd
  | succ fuel ih =>
    intro n d hd
    unfold natDigitsAux at hd
    by_cases h10 : n < 10
    · simp only [if_pos h10, List.mem_singleton] at hd
      omega
    · simp only [if_neg h10, List.mem_append, List.mem_singleton] at hd
      rcases hd with hd | hd
      · exact ih (n / 10) d hd
      · omega

theorem natDigits_lt_ten (n : Nat) : ∀ d ∈ natDigits n, d < 10 :=
  natDigitsAux_lt_ten (n + 1) n

theorem natDigits_ne_nil (n : Nat) : natDigits n ≠ [] := by
  unfold natDigits natDigitsAux
  by_cases h10 : n < 10 <;> simp [h10]

theorem digitChar_inj :
    ∀ d₁ : Nat, d₁ < 10 → ∀ d₂ : Nat, d₂ < 10 →
      digitChar d₁ = digitChar d₂ → d₁ = d₂ := by decide

theorem digitChar_ne_minus : ∀ d : Nat, d < 10 → digitChar d ≠ Char.ofNat 45 := by
  decide

theorem map_digitChar_inj :
    ∀ l₁ l₂ : List Nat, (∀ d ∈ l₁, d < 10) → (∀ d ∈ l₂, d < 10) →
      l₁.map digitChar = l₂.map digitChar → l₁ = l₂ := by
  intro l₁
  induction l₁ with
  | nil =>
    intro l₂ _ _ h
    cases l₂ with
    | nil => rfl
    | cons b bs => simp at h
  | cons a as ih =>
    intro l₂ h₁ h₂ h
    cases l₂ with
    | nil => simp at h
    | cons b bs =>
      simp only [List.map_cons, List.cons.injEq] at h
      have ha : a = b :=
        digitChar_inj a (h₁ a (by simp)) b (h₂ b (by simp)) h.1
      have has : as = bs :=
        ih bs (fun d hd => h₁ d (by simp [hd])) (fun d hd => h₂ d (by simp [hd])) h.2
      rw [ha, has]

theorem natDecString_inj {m n : Nat} (h : natDecString m = natDecString n) :
    m = n := by
  unfold natDecString at h
  have hdata : (natDigits m).map digitChar = (natDigits n).map digitChar := by
    exact congrArg String.data h
  exact natDigits_inj
    (map_digitChar_inj (natDigits m) (natDigits n)
      (natDigits_lt_ten m) (natDigits_lt_ten n) hdata)

theorem natDecString_head (n : Nat) :
    ∃ d rest, d < 10 ∧ (natDecString n).data = digitChar d :: rest := by
  rcases List.exists_cons_of_ne_nil (natDigits_ne_nil n) with ⟨d, rest, hd⟩
  refine ⟨d, rest.map digitChar, ?_, ?_⟩
  · exact natDigits_lt_ten n d (by rw [hd]; simp)
  · show ((natDigits n).map digitChar) = digitChar d :: rest.map digitChar
    rw [hd, List.map_cons]

theorem string_data_append (s t : String) : (s ++ t).data = s.data ++ t.data := by
  cases s
  cases t
  rfl

theorem string_of_data {s t : String} (h : s.data = t.data) : s = t := by
  cases s
  cases t
  exact congrArg String.mk h

theorem goIntString_inj :
    ∀ m n : Int, goIntString m = goIntString n → m = n := by
  intro m n h
  unfold goIntString at h
  by_cases hm : m < 0 <;> by_cases hn : n < 0
  · simp only [if_pos hm, if_pos hn] at h
    have hdata := congrArg String.data h
    rw [string_data_append, string_data_append] at hdata
    simp only [List.append_cancel_left_eq] at hdata
    have := natDecString_inj (string_of_data hdata)
    omega
  · simp only [if_pos hm, if_neg hn] at h
    have hdata := congrArg String.data h
    rw [string_data_append] at hdata
    rcases natDecString_head n.toNat with ⟨d, rest, hd10, hhead⟩
    rw [hhead] at hdata
    have hminus : ("-" : String).data = [Char.ofNat 45] := by decide
    rw [hminus] at hdata
    simp only [List.cons_append, List.nil_append, List.cons.injEq] at hdata
    exact absurd hdata.1.symm (digitChar_ne_minus d hd10)
  · simp only [if_neg hm, if_pos hn] at h
    have hdata := congrArg String.data h
    rw [string_data_append] at hdata
    rcases natDecString_head m.toNat with ⟨d, rest, hd10, hhead⟩
    rw [hhead] at hdata
    have hminus : ("-" : String).data = [Char.ofNat 45] := by decide
    rw [hminus] at hdata
    simp only [List.cons_append, List.nil_append, List.cons.injEq] at hdata
    exact absurd hdata.1 (digitChar_ne_minus d hd10)
  · simp only [if_neg hm, if_neg hn] at h
    have := natDecString_inj h
    omega

/-! Helper lemmas about the error-message table and the description method. -/

theorem mapLookup_eq_empty_of_not_mem (e : Int)
    (h : e ∉ errorMessages.map Prod.fst) : mapLookup errorMessages e = "" := by
  have hfind : errorMessages.find? (fun p => p.1 == e) = none := by
    rw [List.find?_eq_none]
    intro p hp hbe
    exact h (List.mem_map.mpr ⟨p, hp, by simpa using hbe⟩)
  unfold mapLookup
  rw [hfind]

theorem errstr_of_not_mem (e : Int) (h : e ∉ errorMessages.map Prod.fst) :
    Error.Error e = "Error " ++ goIntString e := by
  unfold Error.Error
  rw [mapLookup_eq_empty_of_not_mem e h, if_pos rfl]

theorem table_errstr_inj :
    ∀ a ∈ errorMessages.map Prod.fst, ∀ b ∈ errorMessages.map Prod.fst,
      Error.Error a = Error.Error b → a = b := by decide

theorem table_head_ne_E :
    ∀ a ∈ errorMessages.map Prod.fst,
      (Error.Error a).data.head? ≠ some (Char.ofNat 69) := by decide

theorem fallback_head (e : Int) :
    ("Error " ++ goIntString e).data.head? = some (Char.ofNat 69) := by
  rw [string_data_append]
  rfl

theorem string_length_append (s t : String) :
    (s ++ t).length = s.length + t.length := by
  cases s with
  | mk l =>
    cases t with
    | mk m =>
      show (l ++ m).length = l.length + m.length
      exact List.length_append l m

theorem string_length_pos_of_ne_empty (s : String) (h : s ≠ "") :
    0 < s.length := by
  cases s with
  | mk l =>
    cases l with
    | nil => exact absurd (by decide) h
    | cons c cs =>
      show 0 < (c :: cs).length
      simp

/-! The claims. -/

/-- Claim C1, counterexample: ESOFT has no entry in the error-message table,
so the description of ESOFT is the synthesized fallback string, not a
canonical table string. -/
theorem esoft_fallback_counterexample :
    mapLookup errorMessages ESOFT = "" ∧ Error.Error ESOFT = "Error -80" := by
  decide

/-- Claim C1, amended: for the twelve non-success codes that occur in the
error-message table (every declared non-success code except ESOFT), the
description method returns exactly the canonical table string; ESOFT, which
the table omits, gets the synthesized fallback "Error -80". -/
theorem errstr_known_codes :
    Error.Error EIO = "Input / Output Error" ∧
    Error.Error EINVARG = "Invalid argument(s)" ∧
    Error.Error EDEVNOTSUPP = "Not Supported by Device" ∧
    Error.Error ENOTSUCHDEV = "No Such Device" ∧
    Error.Error EOVFLOW = "Buffer Overflow" ∧
    Error.Error ETIMEOUT = "Timeout" ∧
    Error.Error EOPABORTED = "Operation Aborted" ∧
    Error.Error ENOTIMPL = "Not (yet) Implemented" ∧
    Error.Error ETGRELEASED = "Target Released" ∧
    Error.Error ERFTRANS = "RF Transmission Error" ∧
    Error.Error EMFCAUTHFAIL = "Mifare Authentication Failed" ∧
    Error.Error ECHIP = "Device\x27s Internal Chip Error" ∧
    Error.Error ESOFT = "Error -80" := by decide

/-- Claim C2: for every integer code with no entry in the error-message
table, the description method returns exactly the string "Error " followed
by the decimal rendering of the code; the function is total by
construction, so it never fails. -/
theorem errstr_fallback (e : Error) (h : e ∉ errorMessages.map Prod.fst) :
    Error.Error e = "Error " ++ goIntString e :=
  errstr_of_not_mem e h

/-- Claim C2, witness at code -999. -/
theorem errstr_fallback_witness :
    (-999 : Error) ∉ errorMessages.map Prod.fst ∧
      Error.Error (-999) = "Error -999" := by
  refine ⟨by decide, ?_⟩
  rw [errstr_fallback (-999) (by decide)]
  decide

/-- Claim C3: SUCCESS equals 0, the value 0 is an Error value, and its
description is exactly "Success". -/
theorem success_roundtrip :
    SUCCESS = 0 ∧ Error.Error (0 : Error) = "Success" := by decide

/-- Claim C4: the declared error-code constants have exactly the documented
numeric values, and the fourteen values are pairwise distinct. -/
theorem error_code_values :
    SUCCESS = 0 ∧ EIO = -1 ∧ EINVARG = -2 ∧ EDEVNOTSUPP = -3 ∧
    ENOTSUCHDEV = -4 ∧ EOVFLOW = -5 ∧ ETIMEOUT = -6 ∧ EOPABORTED = -7 ∧
    ENOTIMPL = -8 ∧ ETGRELEASED = -10 ∧ ERFTRANS = -20 ∧ EMFCAUTHFAIL = -30 ∧
    ESOFT = -80 ∧ ECHIP = -90 ∧ List.Pairwise (· ≠ ·) errorCodes := by decide

/-- Claim C5: within each constant group (the 15 property identifiers, the
8 modulation types, the 4 baud rates) the values are pairwise distinct and
strictly increase in declaration order. -/
theorem constant_groups_ordered :
    propertyConstants.length = 15 ∧ modulationTypes.length = 8 ∧
    baudRates.length = 4 ∧
    List.Pairwise (· < ·) propertyConstants ∧
    List.Pairwise (· < ·) modulationTypes ∧
    List.Pairwise (· < ·) baudRates ∧
    List.Pairwise (· ≠ ·) propertyConstants ∧
    List.Pairwise (· ≠ ·) modulationTypes ∧
    List.Pairwise (· ≠ ·) baudRates := by decide

/-- Claim C6: package initialization allocates exactly one context, and two
sequential acquisitions return the same handle while leaving the package
state exactly as initialized. -/
theorem context_singleton :
    initPackage.contextAllocs = 1 ∧
    (acquireContext initPackage).1 =
      (acquireContext (acquireContext initPackage).2).1 ∧
    (acquireContext (acquireContext initPackage).2).2 = initPackage :=
  ⟨rfl, rfl, rfl⟩

/-- Claim C7: the description method is pure and deterministic: threading
the table through a call returns it unchanged, a second invocation on the
resulting table yields the same string, and the result agrees with the
direct description function. -/
theorem errstr_pure (e : Error) :
    (errorStringSt errorMessages e).2 = errorMessages ∧
    (errorStringSt (errorStringSt errorMessages e).2 e).1 =
      (errorStringSt errorMessages e).1 ∧
    (errorStringSt errorMessages e).1 = Error.Error e := by
  unfold errorStringSt Error.Error
  by_cases h : mapLookup errorMessages e = "" <;> simp [h]

/-- Claim C8: the maximum connection-string length constant equals 1024. -/
theorem bufsize_connstring_value : BUFSIZE_CONNSTRING = 1024 := rfl

/-- Claim C9: the description method never returns the empty string: an
absent table entry yields the non-empty synthesized fallback, and every
present entry is non-empty by the emptiness test in the method. -/
theorem errstr_nonempty (e : Error) : 0 < (Error.Error e).length := by
  unfold Error.Error
  by_cases h : mapLookup errorMessages e = ""
  · rw [if_pos h, string_length_append]
    have h6 : ("Error " : String).length = 6 := by decide
    omega
  · rw [if_neg h]
    exact string_length_pos_of_ne_empty _ h

/-- Claim C10: the description method is injective over all integer codes:
distinct codes always produce distinct description strings. -/
theorem errstr_injective :
    ∀ e₁ e₂ : Error, Error.Error e₁ = Error.Error e₂ → e₁ = e₂ := by
  intro e₁ e₂ h
  by_cases h₁ : e₁ ∈ errorMessages.map Prod.fst <;>
    by_cases h₂ : e₂ ∈ errorMessages.map Prod.fst
  · exact table_errstr_inj e₁ h₁ e₂ h₂ h
  · exfalso
    rw [errstr_of_not_mem e₂ h₂] at h
    have hne := table_head_ne_E e₁ h₁
    rw [h, fallback_head e₂] at hne
    exact hne rfl
  · exfalso
    rw [errstr_of_not_mem e₁ h₁] at h
    have hne := table_head_ne_E e₂ h₂
    rw [← h, fallback_head e₁] at hne
    exact hne rfl
  · rw [errstr_of_not_mem e₁ h₁, errstr_of_not_mem e₂ h₂] at h
    have hdata := congrArg String.data h
    rw [string_data_append, string_data_append] at hdata
    simp only [List.append_cancel_left_eq] at hdata
    exact goIntString_inj e₁ e₂ (string_of_data hdata)

/-- Claim C10, witness. -/
theorem errstr_injective_witness : (-1 : Error) = -1 :=
  errstr_injective (-1) (-1) rfl

end nfc
